import Mathlib

/-!
Verification of an SFTP server/client core (medianexapp/sftp) against its
natural-language specification.  The Go sources present in the repository
(`attrs_unix.go`, the two `Server.openfile`/`lstat`/`stat` platform files and
the server integration tests) are embedded shallowly below; components that
the specification describes but whose sources are not in the repository
snapshot (the wire codec, the page allocator, the client transfer engine and
the server request handlers) are modelled from the specification text, each
such definition carrying a doc comment that starts with `Modelled from the
spec:`.
-/

namespace Sftp

/-! ## Platform file-open shims (src/unnamed/part_000 and part_002)

`Server.openfile` exists in two build flavours: the POSIX build delegates to
`os.OpenFile`, the wasip1 build is a stub.  A Go `(file, error)` return pair
is embedded as a pair of options; the external collaborator `os.OpenFile` is
a parameter whose contract (spec §6: `open(path, flags, mode) →
descriptor | error`) is the `Except` type: exactly one of the two is present.
-/

/-- A file descriptor handed out by the host OS. -/
structure GoFile where
  fd : Nat
deriving DecidableEq

/-- A Go `error` value (only its presence matters here). -/
structure GoError where
  msg : String
deriving DecidableEq

/-- Embedding of `Server.openfile` from src/unnamed/part_002 (the
`!windows && !wasip1` build): `return os.OpenFile(path, flag, mode)`.
The OS primitive is passed in as `osOpenFile`; its Go result pair is
reconstructed from the `Except` contract. -/
def openfile_posix (osOpenFile : String → Nat → Nat → Except GoError GoFile)
    (path : String) (flag : Nat) (mode : Nat) :
    Option GoFile × Option GoError :=
  match osOpenFile path flag mode with
  | Except.ok f => (some f, none)
  | Except.error e => (none, some e)

/-- Embedding of `Server.openfile` from src/unnamed/part_000 (the `wasip1`
build): `return nil, nil`. -/
def openfile_wasip1 (_path : String) (_flag : Nat) (_mode : Nat) :
    Option GoFile × Option GoError :=
  (none, none)

/-! ## Attribute stat filling (src/attrs_unix.go) -/

/-- Modelled from the spec: `FileAttributes` (§3) is a sparse record with
size (u64), uid/gid (u32 each), permissions (u32 POSIX mode bits),
atime/mtime (u32 seconds each) and extended (name, value) attributes; the
Go struct `FileStat` holding these fields is not in the repository
snapshot. -/
structure FileStat where
  Size : Nat
  Mode : Nat
  Mtime : Nat
  Atime : Nat
  UID : Nat
  GID : Nat
  Extended : List (String × String)
deriving DecidableEq

/-- Modelled from the spec: the uid/gid presence bit of the 32-bit
attribute flag word (§3, §6); its SFTP v3 wire value is 0x00000002.  The
constant's defining Go file is not in the repository snapshot. -/
def sshFileXferAttrUIDGID : Nat := 2

/-- The `Sys()` value of an `os.FileInfo`: either a `*syscall.Stat_t`
carrying uid and gid, or some other platform-specific value. -/
inductive SysInfo where
  | stat_t (uid : Nat) (gid : Nat) : SysInfo
  | other : SysInfo
deriving DecidableEq

/-- The part of `os.FileInfo` consumed by `fileStatFromInfoOs`: only
`fi.Sys()` is inspected. -/
structure FileInfo where
  sys : SysInfo
deriving DecidableEq

/-- Embedding of `fileStatFromInfoOs` from src/attrs_unix.go: on a
`*syscall.Stat_t` it ors the uid/gid presence bit into `*flags` and copies
`Uid`/`Gid` into the `FileStat`; otherwise it does nothing.  The Go
in-place mutation of `*flags` and `*fileStat` is embedded as a
state-in/state-out pair. -/
def fileStatFromInfoOs (fi : FileInfo) (flags : Nat) (fileStat : FileStat) :
    Nat × FileStat :=
  match fi.sys with
  | SysInfo.stat_t uid gid =>
      (flags ||| sshFileXferAttrUIDGID,
       { fileStat with UID := uid, GID := gid })
  | SysInfo.other => (flags, fileStat)

/-! ## Page allocator (spec §4.2)

The allocator sources are not in the repository snapshot; only the test
observers `checkAllocatorBeforeServerClose` / `checkAllocatorAfterServerClose`
(src/unnamed/part_001) are, reading `countUsedPages` and
`countAvailablePages`. -/

/-- Modelled from the spec: the page allocator state (§4.2) — a free list
of fixed-size pages plus the borrowed set; only the two observable
counters `used_pages` and `available_pages` matter for the claims. -/
structure Allocator where
  used_pages : Nat
  available_pages : Nat
deriving DecidableEq

/-- A freshly created allocator owns no pages. -/
def emptyAllocator : Allocator := { used_pages := 0, available_pages := 0 }

/-- Modelled from the spec: borrow is an O(1) pop from the free list, with
allocate-on-exhaustion when the free list is empty (§4.2). -/
def borrowPage (a : Allocator) : Allocator :=
  match a.available_pages with
  | 0 => { used_pages := a.used_pages + 1, available_pages := 0 }
  | n + 1 => { used_pages := a.used_pages + 1, available_pages := n }

/-- Modelled from the spec: return is an O(1) push onto the free list; a
double return (returning when nothing is borrowed) is detected and ignored
(§4.2). -/
def returnPage (a : Allocator) : Allocator :=
  match a.used_pages with
  | 0 => a
  | n + 1 => { used_pages := n, available_pages := a.available_pages + 1 }

/-- Modelled from the spec: at session end the allocator frees all pages it
kept (§4.2: "it frees all pages at session end"), emptying the free list. -/
def closeAllocator (a : Allocator) : Allocator :=
  { used_pages := a.used_pages, available_pages := 0 }

/-- The observer used by `checkAllocatorAfterServerClose`
(src/unnamed/part_001): the number of currently borrowed pages. -/
def countUsedPages (a : Allocator) : Nat := a.used_pages

/-- The observer used by `checkAllocatorAfterServerClose`
(src/unnamed/part_001): the number of pages kept on the free list. -/
def countAvailablePages (a : Allocator) : Nat := a.available_pages

/-- An allocator event: a page is borrowed or returned. -/
inductive AllocOp where
  | borrow : AllocOp
  | ret : AllocOp
deriving DecidableEq

/-- One allocator event applied to the allocator state. -/
def allocStep (a : Allocator) : AllocOp → Allocator
  | AllocOp.borrow => borrowPage a
  | AllocOp.ret => returnPage a

/-- A whole session's allocator events applied in order. -/
def allocRun (a : Allocator) (ops : List AllocOp) : Allocator :=
  ops.foldl allocStep a

/-- `balancedFrom u ops` holds when, starting with `u` pages borrowed, the
event list never returns a page that is not borrowed and ends with every
borrowed page returned — the shape of a graceful session shutdown (spec
§4.2: every borrowed page is returned on request completion). -/
def balancedFrom (u : Nat) : List AllocOp → Bool
  | [] => u == 0
  | AllocOp.borrow :: rest => balancedFrom (u + 1) rest
  | AllocOp.ret :: rest =>
      match u with
      | 0 => false
      | n + 1 => balancedFrom n rest

theorem allocRun_used_eq_zero :
    ∀ (ops : List AllocOp) (a : Allocator),
      balancedFrom a.used_pages ops = true →
      (allocRun a ops).used_pages = 0 := by
  intro ops
  induction ops with
  | nil =>
      intro a h
      simpa [balancedFrom, allocRun] using h
  | cons op rest ih =>
      intro a h
      cases op with
      | borrow =>
          have h' : balancedFrom (a.used_pages + 1) rest = true := by
            simpa [balancedFrom] using h
          have := ih (borrowPage a)
          have hused : (borrowPage a).used_pages = a.used_pages + 1 := by
            cases hA : a.available_pages <;> simp [borrowPage, hA]
          simp only [allocRun, List.foldl_cons] at *
          exact ih (allocStep a AllocOp.borrow)
            (by simpa [allocStep, hused] using h')
      | ret =>
          cases hu : a.used_pages with
          | zero => simp [balancedFrom, hu] at h
          | succ n =>
              have h' : balancedFrom n rest = true := by
                simpa [balancedFrom, hu] using h
              simp only [allocRun, List.foldl_cons]
              exact ih (allocStep a AllocOp.ret)
                (by simpa [allocStep, returnPage, hu] using h')

/-! ## Claim theorems for the openfile shims, the attribute filler and the
allocator -/

/-- C1: the claim says `openfile` never returns with both the descriptor and
the error absent.  The POSIX build (src/unnamed/part_002) satisfies it, but
the wasip1 build (src/unnamed/part_000) is `return nil, nil`: at any input —
here path `/tmp/sftp.test`, flag 0, mode 0644 — both components are absent,
contradicting the spec's `open(path, flags, mode) → descriptor | error`. -/
theorem openfile_wasip1_both_absent :
    openfile_wasip1 "/tmp/sftp.test" 0 420 = (none, none) := rfl

/-- C2: for every graceful-shutdown event history (every page returned, no
double return), `countUsedPages` is zero after the run, and after the
session close frees the retained pages `countAvailablePages` is zero as
well — the condition polled by `checkAllocatorAfterServerClose`. -/
theorem allocator_counters_after_close :
    ∀ (ops : List AllocOp),
      balancedFrom 0 ops = true →
      countUsedPages (allocRun emptyAllocator ops) = 0 ∧
      countAvailablePages (closeAllocator (allocRun emptyAllocator ops)) = 0 := by
  intro ops h
  refine ⟨?_, rfl⟩
  exact allocRun_used_eq_zero ops emptyAllocator (by simpa [emptyAllocator] using h)

theorem allocator_counters_after_close_witness :
    balancedFrom 0 [AllocOp.borrow, AllocOp.borrow, AllocOp.ret, AllocOp.ret] = true ∧
    countUsedPages (allocRun emptyAllocator
      [AllocOp.borrow, AllocOp.borrow, AllocOp.ret, AllocOp.ret]) = 0 ∧
    countAvailablePages (closeAllocator (allocRun emptyAllocator
      [AllocOp.borrow, AllocOp.borrow, AllocOp.ret, AllocOp.ret])) = 0 :=
  ⟨by decide, allocator_counters_after_close _ (by decide)⟩

/-- C3: when `fi.Sys()` is a `*syscall.Stat_t`, `fileStatFromInfoOs` sets
the uid/gid presence bit (bit 1, `sshFileXferAttrUIDGID = 2`) in the flag
word and stores the stat's `Uid`/`Gid` into the `FileStat`; when it is not,
both the flag word and the `FileStat` are returned unchanged. -/
theorem fileStatFromInfoOs_uidgid_spec :
    ∀ (fi : FileInfo) (flags : Nat) (fs : FileStat),
      (∀ uid gid, fi.sys = SysInfo.stat_t uid gid →
        Nat.testBit (fileStatFromInfoOs fi flags fs).1 1 = true ∧
        (fileStatFromInfoOs fi flags fs).2.UID = uid ∧
        (fileStatFromInfoOs fi flags fs).2.GID = gid) ∧
      (fi.sys = SysInfo.other →
        fileStatFromInfoOs fi flags fs = (flags, fs)) := by
  intro fi flags fs
  constructor
  · intro uid gid hsys
    refine ⟨?_, ?_, ?_⟩ <;>
      simp [fileStatFromInfoOs, hsys, sshFileXferAttrUIDGID, Nat.testBit_lor]
    exact Or.inr (by decide)
  · intro hsys
    simp [fileStatFromInfoOs, hsys]

/-- A concrete `FileInfo` whose `Sys()` is a `*syscall.Stat_t` with uid 1000
and gid 100. -/
def fiStat : FileInfo := { sys := SysInfo.stat_t 1000 100 }

/-- A concrete all-zero `FileStat`. -/
def fsZero : FileStat :=
  { Size := 0, Mode := 0, Mtime := 0, Atime := 0, UID := 0, GID := 0,
    Extended := [] }

theorem fileStatFromInfoOs_uidgid_spec_witness :
    Nat.testBit (fileStatFromInfoOs fiStat 0 fsZero).1 1 = true ∧
    (fileStatFromInfoOs fiStat 0 fsZero).2.UID = 1000 ∧
    (fileStatFromInfoOs fiStat 0 fsZero).2.GID = 100 :=
  (fileStatFromInfoOs_uidgid_spec fiStat 0 fsZero).1 1000 100 rfl

/-- C10: `fileStatFromInfoOs` writes at most the `UID` and `GID` fields —
`Size`, `Mode`, `Mtime`, `Atime` and `Extended` keep their prior values —
and only ors bits into the flag word: every flag bit set on entry is still
set on return. -/
theorem fileStatFromInfoOs_frame :
    ∀ (fi : FileInfo) (flags : Nat) (fs : FileStat),
      (fileStatFromInfoOs fi flags fs).2.Size = fs.Size ∧
      (fileStatFromInfoOs fi flags fs).2.Mode = fs.Mode ∧
      (fileStatFromInfoOs fi flags fs).2.Mtime = fs.Mtime ∧
      (fileStatFromInfoOs fi flags fs).2.Atime = fs.Atime ∧
      (fileStatFromInfoOs fi flags fs).2.Extended = fs.Extended ∧
      ∀ i : Nat, Nat.testBit flags i = true →
        Nat.testBit (fileStatFromInfoOs fi flags fs).1 i = true := by
  intro fi flags fs
  cases hsys : fi.sys with
  | stat_t uid gid =>
      refine ⟨?_, ?_, ?_, ?_, ?_, ?_⟩ <;>
        simp [fileStatFromInfoOs, hsys, Nat.testBit_lor]
      intro i h
      exact Or.inl h
  | other =>
      refine ⟨?_, ?_, ?_, ?_, ?_, ?_⟩ <;>
        simp [fileStatFromInfoOs, hsys]

theorem fileStatFromInfoOs_frame_witness :
    (fileStatFromInfoOs fiStat 4 fsZero).2.Size = fsZero.Size ∧
    Nat.testBit (fileStatFromInfoOs fiStat 4 fsZero).1 2 = true :=
  ⟨(fileStatFromInfoOs_frame fiStat 4 fsZero).1,
   (fileStatFromInfoOs_frame fiStat 4 fsZero).2.2.2.2.2 2 (by decide)⟩

/-! ## Host filesystem model (spec §6) and the mkdir/rmdir/stat, hardlink
and append-resume scenarios

The server request handlers and the client transfer engine are not in the
repository snapshot; only the integration tests exercising them
(src/unnamed/part_001: `TestServerMkdirRmdir`, `TestServerLink`,
`TestServerResume`) are.  The host collaborators of spec §6 are modelled
below. -/

/-- The STATUS codes of spec §4.4. -/
inductive Status where
  | ok
  | eof
  | noSuchFile
  | permissionDenied
  | failure
  | badMessage
  | noConnection
  | connectionLost
  | opUnsupported
deriving DecidableEq

/-- Modelled from the spec: the host collaborator `mkdir` (§6) over a
directory-set filesystem model; creating an already existing path fails,
a fresh path is added. -/
def mkdirFS (fs : List String) (p : String) : Option (List String) :=
  if p ∈ fs then none else some (p :: fs)

/-- Modelled from the spec: the host collaborator `rmdir` (§6); removing an
absent path fails, a present path is removed. -/
def rmdirFS (fs : List String) (p : String) : Option (List String) :=
  if p ∈ fs then some (fs.erase p) else none

/-- Modelled from the spec: STAT over the directory-set filesystem model; a
present path succeeds and an absent path yields the NO_SUCH_FILE status
(§4.4, §7: local OS errors map to the closest code). -/
def statFS (fs : List String) (p : String) : Except Status Unit :=
  if p ∈ fs then Except.ok () else Except.error Status.noSuchFile

/-- Modelled from the spec: path lookup on a filesystem modelled as an
association list from path to file size (§6 `stat/lstat` report sizes). -/
def lookupFile (fs : List (String × Nat)) (p : String) : Option Nat :=
  (fs.find? (fun e => e.1 == p)).map (fun e => e.2)

/-- Modelled from the spec: the host collaborator `hardlink` (§6): linking
to an existing file makes the link path resolve to the same inode, hence
the same size; linking to a missing target fails. -/
def hardlinkFS (fs : List (String × Nat)) (link dest : String) :
    Option (List (String × Nat)) :=
  match lookupFile fs dest with
  | some sz => some ((link, sz) :: fs)
  | none => none

/-- Modelled from the spec: LSTAT reporting the size of the file at a path
(§6). -/
def lstatSize (fs : List (String × Nat)) (p : String) : Option Nat :=
  lookupFile fs p

/-- Modelled from the spec: an upload redone with the append flag resumes
at the current remote length — the remote keeps its bytes and the source
suffix past that length is appended (§4.1 APPEND open flag; §8 scenario 2,
exercised by `TestServerResume` via `put -a`). -/
def resumeAppendPut (remote source : List Nat) : List Nat :=
  remote ++ source.drop remote.length

/-- C8: after a successful MKDIR of a fresh path, STAT on it succeeds;
after a subsequent successful RMDIR of the same path, STAT fails with
NO_SUCH_FILE — the scenario of `TestServerMkdirRmdir`. -/
theorem mkdir_stat_rmdir_stat :
    ∀ (fs : List String) (p : String), p ∉ fs →
      mkdirFS fs p = some (p :: fs) ∧
      statFS (p :: fs) p = Except.ok () ∧
      rmdirFS (p :: fs) p = some fs ∧
      statFS fs p = Except.error Status.noSuchFile := by
  intro fs p hp
  refine ⟨?_, ?_, ?_, ?_⟩
  · simp [mkdirFS, hp]
  · simp [statFS]
  · simp [rmdirFS]
  · simp [statFS, hp]

theorem mkdir_stat_rmdir_stat_witness :
    "/tmp/sftp.d" ∉ ([] : List String) ∧
    (mkdirFS [] "/tmp/sftp.d" = some ["/tmp/sftp.d"] ∧
     statFS ["/tmp/sftp.d"] "/tmp/sftp.d" = Except.ok () ∧
     rmdirFS ["/tmp/sftp.d"] "/tmp/sftp.d" = some [] ∧
     statFS [] "/tmp/sftp.d" = Except.error Status.noSuchFile) :=
  ⟨by simp, mkdir_stat_rmdir_stat [] "/tmp/sftp.d" (by simp)⟩

/-- C9: creating a hard link to an existing 999-byte file succeeds, and
LSTAT on the link path reports size 999 — the scenario of
`TestServerLink`. -/
theorem hardlink_lstat_size :
    ∀ (fs : List (String × Nat)) (link dest : String),
      lookupFile fs dest = some 999 →
      hardlinkFS fs link dest = some ((link, 999) :: fs) ∧
      lstatSize ((link, 999) :: fs) link = some 999 := by
  intro fs link dest h
  constructor
  · simp [hardlinkFS, h]
  · have hfind : ((link, (999 : Nat)) :: fs).find? (fun e => e.1 == link)
        = some (link, 999) :=
      List.find?_cons_of_pos _ (by simp)
    simp [lstatSize, lookupFile, hfind]

theorem hardlink_lstat_size_witness :
    lookupFile [("/tmp/f", 999)] "/tmp/f" = some 999 ∧
    (hardlinkFS [("/tmp/f", 999)] "/tmp/l" "/tmp/f"
        = some [("/tmp/l", 999), ("/tmp/f", 999)] ∧
     lstatSize [("/tmp/l", 999), ("/tmp/f", 999)] "/tmp/l" = some 999) :=
  ⟨by decide, hardlink_lstat_size [("/tmp/f", 999)] "/tmp/l" "/tmp/f" (by decide)⟩

/-- C6: writing the first 1 MiB of a 2 MiB source and then redoing the
transfer with the append flag from the full source leaves the remote
byte-for-byte equal to the full source — the scenario of
`TestServerResume`. -/
theorem resume_append_final_content :
    ∀ (source : List Nat) (h : Nat),
      source.length = 2 * 1024 * 1024 →
      h = 1024 * 1024 →
      resumeAppendPut (source.take h) source = source := by
  intro source h hlen hh
  subst hh
  have hmin : (source.take (1024 * 1024)).length = 1024 * 1024 := by
    rw [List.length_take]
    omega
  rw [resumeAppendPut, hmin]
  exact List.take_append_drop (1024 * 1024) source

theorem resume_append_final_content_witness :
    (List.replicate (2 * 1024 * 1024) (0 : Nat)).length = 2 * 1024 * 1024 ∧
    resumeAppendPut ((List.replicate (2 * 1024 * 1024) (0 : Nat)).take (1024 * 1024))
      (List.replicate (2 * 1024 * 1024) (0 : Nat)) =
      List.replicate (2 * 1024 * 1024) (0 : Nat) :=
  ⟨by rw [List.length_replicate],
   resume_append_final_content (List.replicate (2 * 1024 * 1024) 0) (1024 * 1024)
     (by rw [List.length_replicate]) rfl⟩

/-! ## Recursive directory copy (spec §4.6, §8 scenario 3)

The client transfer engine is not in the repository snapshot.  A directory
tree is modelled the way the in-src test walks it: as a list of
(path, entry) rows, paths being component lists.  The comparison is
embedded from `compareDirectoriesRecursive` (src/unnamed/part_001); the
copy is modelled from spec §4.6 for files and directories, while its
symlink behaviour follows the in-src test's own record of the code's
behaviour — the comment "if a is a link, the sftp recursive copy won't
have copied it. ignore" — links are not copied. -/

/-- One filesystem object in a walked tree: a regular file with mode,
mtime (seconds) and content bytes, a directory with mode and mtime, or a
symbolic link. -/
inductive FSEntry where
  | file (mode : Nat) (mtime : Nat) (content : List Nat)
  | dir (mode : Nat) (mtime : Nat)
  | symlink (target : String)
deriving DecidableEq, Inhabited

/-- A walked directory tree: rows of (relative path, entry). -/
abbrev FSTree : Type := List (List String × FSEntry)

/-- Modelled from the spec (§4.6) and the in-src test comment: the
recursive copy with mode preservation keeps every file and directory row
unchanged (modes, times and contents preserved) and drops symbolic links
(the test records that the recursive copy does not copy them). -/
def copyTreeP (t : FSTree) : FSTree :=
  t.filter fun pe =>
    match pe.2 with
    | FSEntry.symlink _ => false
    | _ => true

/-- The mtime leniency of `compareDirectoriesRecursive`
(src/unnamed/part_001): timestamps must agree within one second either
way. -/
def within1s (t t' : Nat) : Bool := decide (t ≤ t' + 1) && decide (t' ≤ t + 1)

/-- The per-object checks of `compareDirectoriesRecursive`
(src/unnamed/part_001): equal modes; for non-directories equal sizes and
equal contents; mtimes within one second. -/
def entriesMatch : FSEntry → FSEntry → Bool
  | FSEntry.file m t c, FSEntry.file m' t' c' =>
      decide (m = m') && decide (c.length = c'.length) && within1s t t' &&
        decide (c = c')
  | FSEntry.dir m t, FSEntry.dir m' t' => decide (m = m') && within1s t t'
  | _, _ => false

/-- Stat of the object at a path of a walked tree (the first row wins, as
on a real filesystem where paths are unique). -/
def lookupPath (t : FSTree) (p : List String) : Option FSEntry :=
  (List.find? (fun pe => pe.1 == p) t).map (fun pe => pe.2)

/-- Embedding of `compareDirectoriesRecursive` (src/unnamed/part_001): walk
every row of the source tree; symbolic links are ignored; every other row
must exist at the same relative path in the target and pass
`entriesMatch`. -/
def compareDirectoriesRecursive (src tgt : FSTree) : Bool :=
  src.all fun pe =>
    match pe.2 with
    | FSEntry.symlink _ => true
    | _ =>
        match lookupPath tgt pe.1 with
        | some e' => entriesMatch pe.2 e'
        | none => false

/-- Does every symlink row of the source appear as a symlink row of the
target?  This is the part of C5 the code does not provide. -/
def symlinksPreserved (src tgt : FSTree) : Bool :=
  src.all fun pe =>
    match pe.2 with
    | FSEntry.symlink _ =>
        match lookupPath tgt pe.1 with
        | some (FSEntry.symlink _) => true
        | _ => false
    | _ => true

/-- No row of the tree is a symbolic link. -/
def noSymlinks (t : FSTree) : Bool :=
  t.all fun pe =>
    match pe.2 with
    | FSEntry.symlink _ => false
    | _ => true

/-- A 2-row source tree holding one directory and one symbolic link. -/
def srcWithLink : FSTree :=
  [([], FSEntry.dir 493 10), (["l"], FSEntry.symlink "/bin/sh")]

theorem entriesMatch_refl :
    ∀ (e : FSEntry),
      (match e with | FSEntry.symlink _ => True | _ => entriesMatch e e = true) := by
  intro e
  cases e with
  | file m t c => simp [entriesMatch, within1s]
  | dir m t => simp [entriesMatch, within1s]
  | symlink s => trivial

theorem lookupPath_copyTreeP :
    ∀ (t : FSTree) (p : List String) (e : FSEntry),
      (t.map Prod.fst).Nodup →
      (p, e) ∈ t →
      (match e with | FSEntry.symlink _ => False | _ => True) →
      lookupPath (copyTreeP t) p = some e := by
  intro t
  induction t with
  | nil => intro p e _ hmem _; simp at hmem
  | cons q rest ih =>
      intro p e hnd hmem hns
      have hnd' : (rest.map Prod.fst).Nodup := by
        simpa [List.nodup_cons] using hnd.of_cons
      rcases List.mem_cons.mp hmem with hq | hrest
      · subst hq
        cases e with
        | symlink s => exact absurd hns (by simp)
        | file m tt c =>
            simp [copyTreeP, lookupPath, List.filter_cons, List.find?]
        | dir m tt =>
            simp [copyTreeP, lookupPath, List.filter_cons, List.find?]
      · have hne : q.1 ≠ p := by
          have hpin : p ∈ rest.map Prod.fst :=
            List.mem_map.mpr ⟨(p, e), hrest, rfl⟩
          have := (List.nodup_cons.mp hnd).1
          intro hcontra
          exact this (by simpa [hcontra] using hpin)
        have hbeq : (q.1 == p) = false := by
          simpa using hne
        cases hq2 : q.2 with
        | symlink s =>
            have : copyTreeP (q :: rest) = copyTreeP rest := by
              simp [copyTreeP, List.filter_cons, hq2]
            rw [this]
            exact ih p e hnd' hrest hns
        | file m tt c =>
            have : copyTreeP (q :: rest) = q :: copyTreeP rest := by
              simp [copyTreeP, List.filter_cons, hq2]
            rw [this]
            have ihres := ih p e hnd' hrest hns
            simpa [lookupPath, List.find?, hbeq] using ihres
        | dir m tt =>
            have : copyTreeP (q :: rest) = q :: copyTreeP rest := by
              simp [copyTreeP, List.filter_cons, hq2]
            rw [this]
            have ihres := ih p e hnd' hrest hns
            simpa [lookupPath, List.find?, hbeq] using ihres

/-- C5 counterexample: `srcWithLink` carries a symbolic link at path
`["l"]`; the recursive copy passes the test's own comparison, yet the
target holds no entry at all at the link's path — the claim's "every
symbolic link in the source is preserved as a symbolic link in the
target" is false at this input.  The in-src test records this behaviour:
"if a is a link, the sftp recursive copy won't have copied it. ignore". -/
theorem copyTree_symlink_not_preserved_cex :
    lookupPath srcWithLink ["l"] = some (FSEntry.symlink "/bin/sh") ∧
    compareDirectoriesRecursive srcWithLink (copyTreeP srcWithLink) = true ∧
    symlinksPreserved srcWithLink (copyTreeP srcWithLink) = false ∧
    lookupPath (copyTreeP srcWithLink) ["l"] = none := by
  decide

/-- C5 (amended): for every source tree with distinct paths, the
recursively copied target passes every check of
`compareDirectoriesRecursive` — identical file modes, identical sizes and
contents, mtimes within one second — while symbolic links are skipped: the
target contains no symlink rows. -/
theorem copyTree_preserves_modes_sizes_mtimes :
    ∀ (src : FSTree), (src.map Prod.fst).Nodup →
      compareDirectoriesRecursive src (copyTreeP src) = true ∧
      noSymlinks (copyTreeP src) = true := by
  intro src hnd
  constructor
  · rw [compareDirectoriesRecursive, List.all_eq_true]
    intro pe hmem
    cases he : pe.2 with
    | symlink s => simp [he]
    | file m t c =>
        have hlk : lookupPath (copyTreeP src) pe.1 = some pe.2 := by
          refine lookupPath_copyTreeP src pe.1 pe.2 hnd ?_ ?_
          · simpa using hmem
          · simp [he]
        rw [he] at hlk
        simp [he, hlk, entriesMatch, within1s]
    | dir m t =>
        have hlk : lookupPath (copyTreeP src) pe.1 = some pe.2 := by
          refine lookupPath_copyTreeP src pe.1 pe.2 hnd ?_ ?_
          · simpa using hmem
          · simp [he]
        rw [he] at hlk
        simp [he, hlk, entriesMatch, within1s]
  · rw [noSymlinks, List.all_eq_true]
    intro pe hmem
    have := (List.mem_filter.mp hmem).2
    cases he : pe.2 with
    | symlink s => rw [he] at this; simp at this
    | file m t c => simp [he]
    | dir m t => simp [he]

theorem copyTree_preserves_modes_sizes_mtimes_witness :
    (srcWithLink.map Prod.fst).Nodup ∧
    (compareDirectoriesRecursive srcWithLink (copyTreeP srcWithLink) = true ∧
     noSymlinks (copyTreeP srcWithLink) = true) :=
  ⟨by decide, copyTree_preserves_modes_sizes_mtimes srcWithLink (by decide)⟩

/-! ## Chunked file transfer (spec §3 Transfer Chunk, §4.5, §4.6)

The client file objects are not in the repository snapshot (only
`TestServerPut`/`TestServerGet` are).  An upload splits the data into
chunks of the negotiated size (default 32 KiB) and writes each at its
offset; a download reads chunks at increasing offsets until a short or
empty chunk signals EOF and reassembles them. -/

/-- The default negotiated chunk size of spec §3: 32 KiB. -/
def chunkSize : Nat := 32768

/-- Splits a byte string into consecutive chunks of `cpred + 1` bytes each
(the last one possibly shorter); the successor form keeps the chunk size
positive. -/
def chunksOf (cpred : Nat) : List Nat → List (List Nat)
  | [] => []
  | x :: xs => ((x :: xs).take (cpred + 1)) :: chunksOf cpred ((x :: xs).drop (cpred + 1))
termination_by l => l.length
decreasing_by
  simp only [List.length_drop, List.length_cons]
  omega

/-- Modelled from the spec: the server WRITE handler at an offset — bytes
`[off, off + d.length)` of the remote file are replaced by `d` (§6
`write(desc, offset, bytes)`). -/
def writeAt (f : List Nat) (off : Nat) (d : List Nat) : List Nat :=
  f.take off ++ d ++ f.drop (off + d.length)

/-- Modelled from the spec: the server READ handler at an offset — up to
`len` bytes starting at `off` (§6 `read(desc, offset, len)`). -/
def readAt (f : List Nat) (off : Nat) (len : Nat) : List Nat :=
  (f.drop off).take len

/-- Modelled from the spec: the client upload of a byte string to a fresh
remote name — the data is cut into chunks of the negotiated size and each
chunk is written at its offset, the remote file starting empty (§4.5
pipelining, §4.6 write stream). -/
def putFile (data : List Nat) : List Nat :=
  (chunksOf (chunkSize - 1) data).foldl (fun f ch => writeAt f f.length ch) []

/-- Modelled from the spec: the client download loop — read a chunk at the
current offset, stop at an empty chunk (EOF), otherwise append it and
continue past it (§4.6 sequential read stream reassembling chunks by
offset). -/
def readLoop (f : List Nat) (off : Nat) : List Nat :=
  if h : readAt f off chunkSize = [] then []
  else readAt f off chunkSize ++ readLoop f (off + (readAt f off chunkSize).length)
termination_by f.length - off
decreasing_by
  have hoff : off < f.length := by
    by_contra hge
    have : f.drop off = [] := List.drop_eq_nil_of_le (by omega)
    simp [readAt, this] at h
  have hpos : 0 < (readAt f off chunkSize).length := by
    cases hc : readAt f off chunkSize with
    | nil => exact absurd hc h
    | cons y ys => simp [hc]
  omega

/-- Modelled from the spec: the client download of a whole remote file
from offset zero (§8 scenario 1, `TestServerGet`). -/
def getFile (f : List Nat) : List Nat := readLoop f 0

theorem writeAt_at_end : ∀ (f d : List Nat), writeAt f f.length d = f ++ d := by
  intro f d
  rw [writeAt, List.take_length, List.drop_eq_nil_of_le (Nat.le_add_right _ _)]
  simp

theorem foldl_writeAt_flatten :
    ∀ (chs : List (List Nat)) (acc : List Nat),
      chs.foldl (fun f ch => writeAt f f.length ch) acc = acc ++ chs.flatten := by
  intro chs
  induction chs with
  | nil => intro acc; simp
  | cons ch rest ih =>
      intro acc
      rw [List.foldl_cons, writeAt_at_end, ih]
      simp

theorem chunksOf_flatten_aux :
    ∀ (c n : Nat) (l : List Nat), l.length = n → (chunksOf c l).flatten = l := by
  intro c n
  induction n using Nat.strong_induction_on with
  | _ n ih =>
      intro l hn
      cases l with
      | nil => simp [chunksOf]
      | cons x xs =>
          rw [chunksOf]
          have hlt : ((x :: xs).drop (c + 1)).length < n := by
            simp only [List.length_drop, List.length_cons]
            simp only [List.length_cons] at hn
            omega
          rw [List.flatten_cons, ih _ hlt _ rfl, List.take_append_drop]

theorem chunksOf_flatten :
    ∀ (c : Nat) (l : List Nat), (chunksOf c l).flatten = l := by
  intro c l
  exact chunksOf_flatten_aux c l.length l rfl

theorem take_append_drop_length :
    ∀ (n : Nat) (l : List Nat), l.take n ++ l.drop ((l.take n).length) = l := by
  intro n l
  rcases le_total n l.length with hle | hge
  · rw [List.length_take, Nat.min_eq_left hle, List.take_append_drop]
  · rw [List.take_of_length_le hge, List.drop_length, List.append_nil]

theorem readLoop_eq_drop_aux :
    ∀ (f : List Nat) (m : Nat) (off : Nat), f.length - off = m →
      readLoop f off = f.drop off := by
  intro f m
  induction m using Nat.strong_induction_on with
  | _ m ih =>
      intro off hm
      rw [readLoop]
      by_cases h : readAt f off chunkSize = []
      · rw [dif_pos h]
        rw [readAt] at h
        rcases List.take_eq_nil_iff.mp h with hz | hnil
        · exact absurd hz (by simp [chunkSize])
        · exact hnil.symm
      · rw [dif_neg h]
        have hoff : off < f.length := by
          by_contra hge
          have : f.drop off = [] := List.drop_eq_nil_of_le (by omega)
          simp [readAt, this] at h
        have hpos : 0 < (readAt f off chunkSize).length := by
          cases hc : readAt f off chunkSize with
          | nil => exact absurd hc h
          | cons y ys => simp [hc]
        have hlt : f.length - (off + (readAt f off chunkSize).length) < m := by
          omega
        rw [ih _ hlt _ rfl]
        rw [readAt, List.length_take]
        have hdd : f.drop (off + min chunkSize (f.drop off).length)
            = (f.drop off).drop (min chunkSize (f.drop off).length) := by
          rw [List.drop_drop, Nat.add_comm]
        rw [hdd]
        have := take_append_drop_length chunkSize (f.drop off)
        rwa [List.length_take] at this

theorem readLoop_eq_drop :
    ∀ (f : List Nat) (off : Nat), readLoop f off = f.drop off := by
  intro f off
  exact readLoop_eq_drop_aux f (f.length - off) off rfl

/-- C7: writing a 10 MiB byte string to a fresh remote name in negotiated
chunks and reading it back returns the same byte string — the write /
read round trip of `TestServerPut` / `TestServerGet` is the identity. -/
theorem put_get_roundtrip :
    ∀ (data : List Nat), data.length = 10 * 1024 * 1024 →
      getFile (putFile data) = data := by
  intro data _
  rw [getFile, readLoop_eq_drop, List.drop_zero, putFile, foldl_writeAt_flatten,
    List.nil_append, chunksOf_flatten]

theorem put_get_roundtrip_witness :
    (List.replicate (10 * 1024 * 1024) (0 : Nat)).length = 10 * 1024 * 1024 ∧
    getFile (putFile (List.replicate (10 * 1024 * 1024) (0 : Nat)))
      = List.replicate (10 * 1024 * 1024) (0 : Nat) :=
  ⟨by rw [List.length_replicate],
   put_get_roundtrip (List.replicate (10 * 1024 * 1024) 0)
     (by rw [List.length_replicate])⟩

/-! ## Wire codec (spec §4.1, §6)

The codec sources are not in the repository snapshot; the packet bodies
are modelled from the spec: SFTP version-3 framing — a 32-bit big-endian
length, a one-byte type tag, a 32-bit request identifier on every packet
except the version handshake and the extended-reply, then the typed body;
strings are 32-bit-length-prefixed; attributes are a 32-bit flag word
followed by each present field in a fixed order; decoding is
length-strict. The byte stream is a list of naturals below 256. -/

/-- One byte, big-endian (the value reduced mod 256). -/
def putU8 (v : Nat) : List Nat := [v % 256]

/-- A 32-bit big-endian integer as four bytes. -/
def putU32 (v : Nat) : List Nat :=
  [v / 2 ^ 24 % 256, v / 2 ^ 16 % 256, v / 2 ^ 8 % 256, v % 256]

/-- A 64-bit big-endian integer as eight bytes. -/
def putU64 (v : Nat) : List Nat := putU32 (v / 2 ^ 32) ++ putU32 (v % 2 ^ 32)

/-- A 32-bit-length-prefixed byte string (spec §4.1: strings and byte
buffers are 32-bit-length-prefixed, no terminator). -/
def putBytes (s : List Nat) : List Nat := putU32 s.length ++ s

/-- Reads one byte. -/
def getU8 : List Nat → Option (Nat × List Nat)
  | [] => none
  | b :: rest => some (b, rest)

/-- Reads a 32-bit big-endian integer. -/
def getU32 : List Nat → Option (Nat × List Nat)
  | b0 :: b1 :: b2 :: b3 :: rest =>
      some (((b0 * 256 + b1) * 256 + b2) * 256 + b3, rest)
  | _ => none

/-- Reads a 64-bit big-endian integer. -/
def getU64 (bs : List Nat) : Option (Nat × List Nat) := do
  let (hi, r1) ← getU32 bs
  let (lo, r2) ← getU32 r1
  pure (hi * 2 ^ 32 + lo, r2)

/-- Reads a 32-bit-length-prefixed byte string; underruns fail (spec §4.1:
decoding is length-strict). -/
def getBytes (bs : List Nat) : Option (List Nat × List Nat) := do
  let (n, r1) ← getU32 bs
  if n ≤ r1.length then pure (r1.take n, r1.drop n) else none

/-- Modelled from the spec: the size-presence bit of the attribute flag
word (§3). -/
def sshFileXferAttrSize : Nat := 1

/-- Modelled from the spec: the permissions-presence bit of the attribute
flag word (§3). -/
def sshFileXferAttrPermissions : Nat := 4

/-- Modelled from the spec: the atime/mtime-presence bit of the attribute
flag word (§3). -/
def sshFileXferAttrACmodTime : Nat := 8

/-- Modelled from the spec: the extended-attributes presence bit of the
attribute flag word (§3). -/
def sshFileXferAttrExtended : Nat := 2 ^ 31

/-- Modelled from the spec: `FileAttributes` (§3) as a sparse record —
each field is present exactly when its flag bit is set: size (u64),
uid/gid (u32 each, one flag), permissions (u32), atime/mtime (u32 seconds
each, one flag), and an ordered list of (name, value) extended
attributes. -/
structure FileAttrs where
  size : Option Nat
  uidgid : Option (Nat × Nat)
  permissions : Option Nat
  acmodtime : Option (Nat × Nat)
  extended : Option (List (List Nat × List Nat))
deriving DecidableEq

/-- The 32-bit flag word of an attribute record: one bit per present
field (spec §3, §4.1). -/
def attrFlags (a : FileAttrs) : Nat :=
  (if a.size.isSome then sshFileXferAttrSize else 0) |||
  (if a.uidgid.isSome then sshFileXferAttrUIDGID else 0) |||
  (if a.permissions.isSome then sshFileXferAttrPermissions else 0) |||
  (if a.acmodtime.isSome then sshFileXferAttrACmodTime else 0) |||
  (if a.extended.isSome then sshFileXferAttrExtended else 0)

/-- Encodes an optional field: absent fields never occupy wire bytes
(spec §3). -/
def putOpt {α : Type} (put : α → List Nat) : Option α → List Nat
  | none => []
  | some x => put x

/-- Two length-prefixed strings in a row: a (name, value) pair. -/
def putPair (p : List Nat × List Nat) : List Nat := putBytes p.1 ++ putBytes p.2

/-- Two 32-bit integers in a row (uid/gid, atime/mtime). -/
def putU32Pair (p : Nat × Nat) : List Nat := putU32 p.1 ++ putU32 p.2

/-- Attribute encoding (spec §4.1): the 32-bit flag word followed by each
present field in the fixed order size, uid/gid, permissions, atime/mtime,
extended count plus pairs. -/
def putAttrs (a : FileAttrs) : List Nat :=
  putU32 (attrFlags a) ++
  putOpt putU64 a.size ++
  putOpt putU32Pair a.uidgid ++
  putOpt putU32 a.permissions ++
  putOpt putU32Pair a.acmodtime ++
  putOpt (fun l => putU32 l.length ++ (l.map putPair).flatten) a.extended

/-- Reads an optional field, guided by its presence bit. -/
def getOpt {α : Type} (g : List Nat → Option (α × List Nat)) :
    Bool → List Nat → Option (Option α × List Nat)
  | false, bs => some (none, bs)
  | true, bs => (g bs).map (fun p => (some p.1, p.2))

/-- Reads two 32-bit integers in a row. -/
def getU32Pair (bs : List Nat) : Option ((Nat × Nat) × List Nat) := do
  let (x, r1) ← getU32 bs
  let (y, r2) ← getU32 r1
  pure ((x, y), r2)

/-- Reads a (name, value) string pair. -/
def getPair (bs : List Nat) : Option ((List Nat × List Nat) × List Nat) := do
  let (x, r1) ← getBytes bs
  let (y, r2) ← getBytes r1
  pure ((x, y), r2)

/-- Reads exactly `n` (name, value) pairs. -/
def getNPairs : Nat → List Nat → Option (List (List Nat × List Nat) × List Nat)
  | 0, bs => some ([], bs)
  | n + 1, bs => do
      let (p, r1) ← getPair bs
      let (rest, r2) ← getNPairs n r1
      pure (p :: rest, r2)

/-- Reads the extended-attribute block: a 32-bit count then that many
pairs. -/
def getExtList (bs : List Nat) :
    Option (List (List Nat × List Nat) × List Nat) := do
  let (n, r1) ← getU32 bs
  getNPairs n r1

/-- Attribute decoding, driven by the flag word (spec §3): each field is
read exactly when its bit is set. -/
def getAttrs (bs : List Nat) : Option (FileAttrs × List Nat) := do
  let (flags, r0) ← getU32 bs
  let (sz, r1) ← getOpt getU64 (Nat.testBit flags 0) r0
  let (ug, r2) ← getOpt getU32Pair (Nat.testBit flags 1) r1
  let (pm, r3) ← getOpt getU32 (Nat.testBit flags 2) r2
  let (tm, r4) ← getOpt getU32Pair (Nat.testBit flags 3) r3
  let (ex, r5) ← getOpt getExtList (Nat.testBit flags 31) r4
  pure ({ size := sz, uidgid := ug, permissions := pm, acmodtime := tm,
          extended := ex }, r5)

/-- Modelled from the spec: the tagged variant over the 19 request packet
kinds, the 6 response packet kinds and EXTENDED / EXTENDED_REPLY (§4.1,
§9); every packet except the version handshake pair and the extended-reply
carries a 32-bit request identifier (§3). -/
inductive Packet where
  | init (version : Nat)
  | version (version : Nat) (extensions : List (List Nat × List Nat))
  | openPk (rid : Nat) (path : List Nat) (pflags : Nat) (attrs : FileAttrs)
  | close (rid : Nat) (handle : List Nat)
  | read (rid : Nat) (handle : List Nat) (offset : Nat) (len : Nat)
  | write (rid : Nat) (handle : List Nat) (offset : Nat) (data : List Nat)
  | lstat (rid : Nat) (path : List Nat)
  | fstat (rid : Nat) (handle : List Nat)
  | setstat (rid : Nat) (path : List Nat) (attrs : FileAttrs)
  | fsetstat (rid : Nat) (handle : List Nat) (attrs : FileAttrs)
  | opendir (rid : Nat) (path : List Nat)
  | readdir (rid : Nat) (handle : List Nat)
  | remove (rid : Nat) (path : List Nat)
  | mkdir (rid : Nat) (path : List Nat) (attrs : FileAttrs)
  | rmdir (rid : Nat) (path : List Nat)
  | realpath (rid : Nat) (path : List Nat)
  | stat (rid : Nat) (path : List Nat)
  | rename (rid : Nat) (oldpath : List Nat) (newpath : List Nat)
  | readlink (rid : Nat) (path : List Nat)
  | symlink (rid : Nat) (linkpath : List Nat) (targetpath : List Nat)
  | status (rid : Nat) (code : Nat) (msg : List Nat) (lang : List Nat)
  | handle (rid : Nat) (handle : List Nat)
  | data (rid : Nat) (data : List Nat)
  | name (rid : Nat) (entries : List (List Nat × List Nat × FileAttrs))
  | attrs (rid : Nat) (attrs : FileAttrs)
  | extended (rid : Nat) (extName : List Nat) (extData : List Nat)
  | extendedReply (payload : List Nat)
deriving DecidableEq

/-- One NAME response entry: filename, long-form listing, attributes
(spec §4.4 READDIR semantics). -/
def putEntry (e : List Nat × List Nat × FileAttrs) : List Nat :=
  putBytes e.1 ++ putBytes e.2.1 ++ putAttrs e.2.2

/-- The type-tagged body bytes of a packet (spec §6: 1-byte type, 32-bit
identifier except for VERSION / INIT / EXTENDED_REPLY, then the fields;
SFTP v3 type-tag values). -/
def encodeBody : Packet → List Nat
  | Packet.init v => putU8 1 ++ putU32 v
  | Packet.version v exts => putU8 2 ++ putU32 v ++ (exts.map putPair).flatten
  | Packet.openPk rid path pflags a =>
      putU8 3 ++ putU32 rid ++ putBytes path ++ putU32 pflags ++ putAttrs a
  | Packet.close rid h => putU8 4 ++ putU32 rid ++ putBytes h
  | Packet.read rid h off len =>
      putU8 5 ++ putU32 rid ++ putBytes h ++ putU64 off ++ putU32 len
  | Packet.write rid h off d =>
      putU8 6 ++ putU32 rid ++ putBytes h ++ putU64 off ++ putBytes d
  | Packet.lstat rid path => putU8 7 ++ putU32 rid ++ putBytes path
  | Packet.fstat rid h => putU8 8 ++ putU32 rid ++ putBytes h
  | Packet.setstat rid path a =>
      putU8 9 ++ putU32 rid ++ putBytes path ++ putAttrs a
  | Packet.fsetstat rid h a =>
      putU8 10 ++ putU32 rid ++ putBytes h ++ putAttrs a
  | Packet.opendir rid path => putU8 11 ++ putU32 rid ++ putBytes path
  | Packet.readdir rid h => putU8 12 ++ putU32 rid ++ putBytes h
  | Packet.remove rid path => putU8 13 ++ putU32 rid ++ putBytes path
  | Packet.mkdir rid path a =>
      putU8 14 ++ putU32 rid ++ putBytes path ++ putAttrs a
  | Packet.rmdir rid path => putU8 15 ++ putU32 rid ++ putBytes path
  | Packet.realpath rid path => putU8 16 ++ putU32 rid ++ putBytes path
  | Packet.stat rid path => putU8 17 ++ putU32 rid ++ putBytes path
  | Packet.rename rid oldp newp =>
      putU8 18 ++ putU32 rid ++ putBytes oldp ++ putBytes newp
  | Packet.readlink rid path => putU8 19 ++ putU32 rid ++ putBytes path
  | Packet.symlink rid lp tp =>
      putU8 20 ++ putU32 rid ++ putBytes lp ++ putBytes tp
  | Packet.status rid code msg lang =>
      putU8 101 ++ putU32 rid ++ putU32 code ++ putBytes msg ++ putBytes lang
  | Packet.handle rid h => putU8 102 ++ putU32 rid ++ putBytes h
  | Packet.data rid d => putU8 103 ++ putU32 rid ++ putBytes d
  | Packet.name rid entries =>
      putU8 104 ++ putU32 rid ++ putU32 entries.length ++
        (entries.map putEntry).flatten
  | Packet.attrs rid a => putU8 105 ++ putU32 rid ++ putAttrs a
  | Packet.extended rid nm d => putU8 200 ++ putU32 rid ++ putBytes nm ++ d
  | Packet.extendedReply payload => putU8 201 ++ payload

/-- Encode-to-buffer (spec §4.1): the final frame is the 32-bit big-endian
body length followed by the body, written in one shot. -/
def encodePacket (p : Packet) : List Nat :=
  putU32 (encodeBody p).length ++ encodeBody p

/-- Reads the extension pairs of a VERSION packet: pairs repeated until
the end of the frame; the fuel argument (instantiated with the stream
length) bounds the recursion, each pair consuming at least eight bytes. -/
def getPairsAll : Nat → List Nat → Option (List (List Nat × List Nat))
  | _, [] => some []
  | 0, _ :: _ => none
  | fuel + 1, b :: bs => do
      let (p, r1) ← getPair (b :: bs)
      let rest ← getPairsAll fuel r1
      pure (p :: rest)

/-- Reads exactly `n` NAME entries. -/
def getNEntries :
    Nat → List Nat → Option (List (List Nat × List Nat × FileAttrs) × List Nat)
  | 0, bs => some ([], bs)
  | n + 1, bs => do
      let (fn, r1) ← getBytes bs
      let (ln, r2) ← getBytes r1
      let (a, r3) ← getAttrs r2
      let (rest, r4) ← getNEntries n r3
      pure ((fn, ln, a) :: rest, r4)

/-- Decode-from-frame, body part (spec §4.1): a single decoder returning
the tagged variant; a one-byte tag dispatches to the field readers;
EXTENDED data and EXTENDED_REPLY payloads extend to the end of the
frame. -/
def decodeBody (bs : List Nat) : Option (Packet × List Nat) := do
  let (tag, r0) ← getU8 bs
  match tag with
  | 1 => do
      let (v, r1) ← getU32 r0
      pure (Packet.init v, r1)
  | 2 => do
      let (v, r1) ← getU32 r0
      let exts ← getPairsAll r1.length r1
      pure (Packet.version v exts, [])
  | 3 => do
      let (rid, r1) ← getU32 r0
      let (path, r2) ← getBytes r1
      let (pflags, r3) ← getU32 r2
      let (a, r4) ← getAttrs r3
      pure (Packet.openPk rid path pflags a, r4)
  | 4 => do
      let (rid, r1) ← getU32 r0
      let (h, r2) ← getBytes r1
      pure (Packet.close rid h, r2)
  | 5 => do
      let (rid, r1) ← getU32 r0
      let (h, r2) ← getBytes r1
      let (off, r3) ← getU64 r2
      let (len, r4) ← getU32 r3
      pure (Packet.read rid h off len, r4)
  | 6 => do
      let (rid, r1) ← getU32 r0
      let (h, r2) ← getBytes r1
      let (off, r3) ← getU64 r2
      let (d, r4) ← getBytes r3
      pure (Packet.write rid h off d, r4)
  | 7 => do
      let (rid, r1) ← getU32 r0
      let (path, r2) ← getBytes r1
      pure (Packet.lstat rid path, r2)
  | 8 => do
      let (rid, r1) ← getU32 r0
      let (h, r2) ← getBytes r1
      pure (Packet.fstat rid h, r2)
  | 9 => do
      let (rid, r1) ← getU32 r0
      let (path, r2) ← getBytes r1
      let (a, r3) ← getAttrs r2
      pure (Packet.setstat rid path a, r3)
  | 10 => do
      let (rid, r1) ← getU32 r0
      let (h, r2) ← getBytes r1
      let (a, r3) ← getAttrs r2
      pure (Packet.fsetstat rid h a, r3)
  | 11 => do
      let (rid, r1) ← getU32 r0
      let (path, r2) ← getBytes r1
      pure (Packet.opendir rid path, r2)
  | 12 => do
      let (rid, r1) ← getU32 r0
      let (h, r2) ← getBytes r1
      pure (Packet.readdir rid h, r2)
  | 13 => do
      let (rid, r1) ← getU32 r0
      let (path, r2) ← getBytes r1
      pure (Packet.remove rid path, r2)
  | 14 => do
      let (rid, r1) ← getU32 r0
      let (path, r2) ← getBytes r1
      let (a, r3) ← getAttrs r2
      pure (Packet.mkdir rid path a, r3)
  | 15 => do
      let (rid, r1) ← getU32 r0
      let (path, r2) ← getBytes r1
      pure (Packet.rmdir rid path, r2)
  | 16 => do
      let (rid, r1) ← getU32 r0
      let (path, r2) ← getBytes r1
      pure (Packet.realpath rid path, r2)
  | 17 => do
      let (rid, r1) ← getU32 r0
      let (path, r2) ← getBytes r1
      pure (Packet.stat rid path, r2)
  | 18 => do
      let (rid, r1) ← getU32 r0
      let (oldp, r2) ← getBytes r1
      let (newp, r3) ← getBytes r2
      pure (Packet.rename rid oldp newp, r3)
  | 19 => do
      let (rid, r1) ← getU32 r0
      let (path, r2) ← getBytes r1
      pure (Packet.readlink rid path, r2)
  | 20 => do
      let (rid, r1) ← getU32 r0
      let (lp, r2) ← getBytes r1
      let (tp, r3) ← getBytes r2
      pure (Packet.symlink rid lp tp, r3)
  | 101 => do
      let (rid, r1) ← getU32 r0
      let (code, r2) ← getU32 r1
      let (msg, r3) ← getBytes r2
      let (lang, r4) ← getBytes r3
      pure (Packet.status rid code msg lang, r4)
  | 102 => do
      let (rid, r1) ← getU32 r0
      let (h, r2) ← getBytes r1
      pure (Packet.handle rid h, r2)
  | 103 => do
      let (rid, r1) ← getU32 r0
      let (d, r2) ← getBytes r1
      pure (Packet.data rid d, r2)
  | 104 => do
      let (rid, r1) ← getU32 r0
      let (n, r2) ← getU32 r1
      let (entries, r3) ← getNEntries n r2
      pure (Packet.name rid entries, r3)
  | 105 => do
      let (rid, r1) ← getU32 r0
      let (a, r2) ← getAttrs r1
      pure (Packet.attrs rid a, r2)
  | 200 => do
      let (rid, r1) ← getU32 r0
      let (nm, r2) ← getBytes r1
      pure (Packet.extended rid nm r2, [])
  | 201 => pure (Packet.extendedReply r0, [])
  | _ => none

/-- Decode-from-frame (spec §4.1): read the 32-bit length, demand that the
remaining bytes are exactly that long, parse the body and demand that it
consumes the whole frame — any overrun or underrun fails. -/
def decodePacket (frame : List Nat) : Option Packet :=
  match getU32 frame with
  | some (len, r1) =>
      if r1.length = len then
        match decodeBody r1 with
        | some (p, []) => some p
        | _ => none
      else none
  | none => none

/-- Do the 32-bit fields, string lengths, 64-bit fields and list lengths
of the packet fit their wire sizes?  Go's uint32/uint64/string types
guarantee this for every packet the code builds. -/
def wfBytes32 (s : List Nat) : Bool := decide (s.length < 2 ^ 32)

/-- Well-formedness of a (name, value) pair: both strings fit. -/
def wfPair (p : List Nat × List Nat) : Bool := wfBytes32 p.1 && wfBytes32 p.2

/-- Well-formedness of a u32 pair. -/
def wfU32Pair (p : Nat × Nat) : Bool :=
  decide (p.1 < 2 ^ 32) && decide (p.2 < 2 ^ 32)

/-- Well-formedness of an optional field. -/
def wfOpt {α : Type} (w : α → Bool) : Option α → Bool
  | none => true
  | some x => w x

/-- Well-formedness of an attribute record: every present field fits its
wire size. -/
def wfAttrs (a : FileAttrs) : Bool :=
  wfOpt (fun v => decide (v < 2 ^ 64)) a.size &&
  wfOpt wfU32Pair a.uidgid &&
  wfOpt (fun v => decide (v < 2 ^ 32)) a.permissions &&
  wfOpt wfU32Pair a.acmodtime &&
  wfOpt (fun l => decide (l.length < 2 ^ 32) && l.all wfPair) a.extended

/-- Well-formedness of a NAME entry. -/
def wfEntry (e : List Nat × List Nat × FileAttrs) : Bool :=
  wfBytes32 e.1 && wfBytes32 e.2.1 && wfAttrs e.2.2

/-- Well-formedness of a packet body: every field fits its wire size. -/
def wfBody : Packet → Bool
  | Packet.init v => decide (v < 2 ^ 32)
  | Packet.version v exts => decide (v < 2 ^ 32) && exts.all wfPair
  | Packet.openPk rid path pflags a =>
      decide (rid < 2 ^ 32) && wfBytes32 path && decide (pflags < 2 ^ 32) &&
        wfAttrs a
  | Packet.close rid h => decide (rid < 2 ^ 32) && wfBytes32 h
  | Packet.read rid h off len =>
      decide (rid < 2 ^ 32) && wfBytes32 h && decide (off < 2 ^ 64) &&
        decide (len < 2 ^ 32)
  | Packet.write rid h off d =>
      decide (rid < 2 ^ 32) && wfBytes32 h && decide (off < 2 ^ 64) &&
        wfBytes32 d
  | Packet.lstat rid path => decide (rid < 2 ^ 32) && wfBytes32 path
  | Packet.fstat rid h => decide (rid < 2 ^ 32) && wfBytes32 h
  | Packet.setstat rid path a =>
      decide (rid < 2 ^ 32) && wfBytes32 path && wfAttrs a
  | Packet.fsetstat rid h a =>
      decide (rid < 2 ^ 32) && wfBytes32 h && wfAttrs a
  | Packet.opendir rid path => decide (rid < 2 ^ 32) && wfBytes32 path
  | Packet.readdir rid h => decide (rid < 2 ^ 32) && wfBytes32 h
  | Packet.remove rid path => decide (rid < 2 ^ 32) && wfBytes32 path
  | Packet.mkdir rid path a =>
      decide (rid < 2 ^ 32) && wfBytes32 path && wfAttrs a
  | Packet.rmdir rid path => decide (rid < 2 ^ 32) && wfBytes32 path
  | Packet.realpath rid path => decide (rid < 2 ^ 32) && wfBytes32 path
  | Packet.stat rid path => decide (rid < 2 ^ 32) && wfBytes32 path
  | Packet.rename rid oldp newp =>
      decide (rid < 2 ^ 32) && wfBytes32 oldp && wfBytes32 newp
  | Packet.readlink rid path => decide (rid < 2 ^ 32) && wfBytes32 path
  | Packet.symlink rid lp tp =>
      decide (rid < 2 ^ 32) && wfBytes32 lp && wfBytes32 tp
  | Packet.status rid code msg lang =>
      decide (rid < 2 ^ 32) && decide (code < 2 ^ 32) && wfBytes32 msg &&
        wfBytes32 lang
  | Packet.handle rid h => decide (rid < 2 ^ 32) && wfBytes32 h
  | Packet.data rid d => decide (rid < 2 ^ 32) && wfBytes32 d
  | Packet.name rid entries =>
      decide (rid < 2 ^ 32) && decide (entries.length < 2 ^ 32) &&
        entries.all wfEntry
  | Packet.attrs rid a => decide (rid < 2 ^ 32) && wfAttrs a
  | Packet.extended rid nm d =>
      decide (rid < 2 ^ 32) && wfBytes32 nm
  | Packet.extendedReply _ => true

/-- Well-formedness of a packet: a well-formed body whose encoding also
fits the 32-bit frame length. -/
def wfPacket (p : Packet) : Bool :=
  wfBody p && decide ((encodeBody p).length < 2 ^ 32)

/-! ### Codec roundtrip lemmas -/

theorem getU32_putU32 (v : Nat) (r : List Nat) (h : v < 2 ^ 32) :
    getU32 (putU32 v ++ r) = some (v, r) := by
  simp only [putU32, List.cons_append, List.nil_append, getU32,
    Option.some.injEq, Prod.mk.injEq]
  exact ⟨by omega, trivial⟩

theorem getU64_putU64 (v : Nat) (r : List Nat) (h : v < 2 ^ 64) :
    getU64 (putU64 v ++ r) = some (v, r) := by
  have h1 : v / 2 ^ 32 < 2 ^ 32 := by omega
  have h2 : v % 2 ^ 32 < 2 ^ 32 := by omega
  simp only [putU64, List.append_assoc, getU64]
  rw [getU32_putU32 _ _ h1]
  simp only [Option.bind_eq_bind, Option.some_bind]
  rw [getU32_putU32 _ _ h2]
  simp only [Option.some_bind, Option.pure_def, Option.some.injEq,
    Prod.mk.injEq, and_true]
  omega

theorem getBytes_putBytes (s : List Nat) (r : List Nat)
    (h : s.length < 2 ^ 32) :
    getBytes (putBytes s ++ r) = some (s, r) := by
  simp only [putBytes, List.append_assoc, getBytes]
  rw [getU32_putU32 _ _ h]
  simp only [Option.bind_eq_bind, Option.some_bind, List.length_append,
    Nat.le_add_right, if_pos, List.take_left, List.drop_left]
  rfl

theorem getU32Pair_putU32Pair (p : Nat × Nat) (r : List Nat)
    (h : wfU32Pair p = true) :
    getU32Pair (putU32Pair p ++ r) = some (p, r) := by
  rcases p with ⟨x, y⟩
  simp only [wfU32Pair, Bool.and_eq_true, decide_eq_true_eq] at h
  simp only [putU32Pair, List.append_assoc, getU32Pair]
  rw [getU32_putU32 _ _ h.1]
  simp only [Option.bind_eq_bind, Option.some_bind]
  rw [getU32_putU32 _ _ h.2]
  simp only [Option.some_bind, Option.pure_def]

theorem getPair_putPair (p : List Nat × List Nat) (r : List Nat)
    (h : wfPair p = true) :
    getPair (putPair p ++ r) = some (p, r) := by
  rcases p with ⟨x, y⟩
  simp only [wfPair, wfBytes32, Bool.and_eq_true, decide_eq_true_eq] at h
  simp only [putPair, List.append_assoc, getPair]
  rw [getBytes_putBytes _ _ h.1]
  simp only [Option.bind_eq_bind, Option.some_bind]
  rw [getBytes_putBytes _ _ h.2]
  simp only [Option.some_bind, Option.pure_def]

theorem attrFlags_bits (a : FileAttrs) :
    Nat.testBit (attrFlags a) 0 = a.size.isSome ∧
    Nat.testBit (attrFlags a) 1 = a.uidgid.isSome ∧
    Nat.testBit (attrFlags a) 2 = a.permissions.isSome ∧
    Nat.testBit (attrFlags a) 3 = a.acmodtime.isSome ∧
    Nat.testBit (attrFlags a) 31 = a.extended.isSome := by
  rcases a with ⟨s, u, p, t, e⟩
  cases s <;> cases u <;> cases p <;> cases t <;> cases e <;>
    simp only [attrFlags, Option.isSome_some, Option.isSome_none, if_true,
      if_false, Bool.false_eq_true, ite_true, ite_false] <;> decide

theorem attrFlags_lt (a : FileAttrs) : attrFlags a < 2 ^ 32 := by
  rcases a with ⟨s, u, p, t, e⟩
  cases s <;> cases u <;> cases p <;> cases t <;> cases e <;>
    simp only [attrFlags, Option.isSome_some, Option.isSome_none, if_true,
      if_false, Bool.false_eq_true, ite_true, ite_false] <;> decide

theorem getOpt_putOpt {α : Type} (g : List Nat → Option (α × List Nat))
    (put : α → List Nat) (w : α → Bool)
    (hg : ∀ x r, w x = true → g (put x ++ r) = some (x, r)) :
    ∀ (o : Option α) (r : List Nat), wfOpt w o = true →
      getOpt g o.isSome (putOpt put o ++ r) = some (o, r) := by
  intro o r hw
  cases o with
  | none => simp [putOpt, getOpt]
  | some x =>
      have hx : w x = true := by simpa [wfOpt] using hw
      simp only [putOpt, Option.isSome_some, getOpt]
      rw [hg x r hx]
      rfl

theorem getNPairs_putPairs :
    ∀ (l : List (List Nat × List Nat)) (r : List Nat), l.all wfPair = true →
      getNPairs l.length ((l.map putPair).flatten ++ r) = some (l, r) := by
  intro l
  induction l with
  | nil => intro r _; simp [getNPairs]
  | cons p rest ih =>
      intro r hall
      simp only [List.all_cons, Bool.and_eq_true] at hall
      simp only [List.map_cons, List.flatten_cons, List.length_cons,
        List.append_assoc, getNPairs]
      rw [getPair_putPair p _ hall.1]
      simp only [Option.bind_eq_bind, Option.some_bind]
      rw [ih r hall.2]
      rfl

theorem getExtList_putExtList (l : List (List Nat × List Nat)) (r : List Nat)
    (hlen : decide (l.length < 2 ^ 32) = true) (hall : l.all wfPair = true) :
    getExtList ((putU32 l.length ++ (l.map putPair).flatten) ++ r)
      = some (l, r) := by
  simp only [getExtList, List.append_assoc]
  rw [getU32_putU32 _ _ (of_decide_eq_true hlen)]
  simp only [Option.bind_eq_bind, Option.some_bind]
  exact getNPairs_putPairs l r hall

theorem getAttrs_putAttrs (a : FileAttrs) (r : List Nat)
    (hw : wfAttrs a = true) :
    getAttrs (putAttrs a ++ r) = some (a, r) := by
  simp only [wfAttrs, Bool.and_eq_true] at hw
  obtain ⟨⟨⟨⟨hs, hu⟩, hp⟩, ht⟩, he⟩ := hw
  have hb := attrFlags_bits a
  simp only [putAttrs, List.append_assoc, getAttrs]
  rw [getU32_putU32 _ _ (attrFlags_lt a)]
  simp only [Option.bind_eq_bind, Option.some_bind]
  rw [hb.1, getOpt_putOpt getU64 putU64 (fun v => decide (v < 2 ^ 64))
    (fun x r hx => getU64_putU64 x r (of_decide_eq_true hx)) a.size _ hs]
  simp only [Option.some_bind]
  rw [hb.2.1, getOpt_putOpt getU32Pair putU32Pair wfU32Pair
    getU32Pair_putU32Pair a.uidgid _ hu]
  simp only [Option.some_bind]
  rw [hb.2.2.1, getOpt_putOpt getU32 putU32 (fun v => decide (v < 2 ^ 32))
    (fun x r hx => getU32_putU32 x r (of_decide_eq_true hx)) a.permissions _ hp]
  simp only [Option.some_bind]
  rw [hb.2.2.2.1, getOpt_putOpt getU32Pair putU32Pair wfU32Pair
    getU32Pair_putU32Pair a.acmodtime _ ht]
  simp only [Option.some_bind]
  rw [hb.2.2.2.2, getOpt_putOpt getExtList
    (fun l => putU32 l.length ++ (l.map putPair).flatten)
    (fun l => decide (l.length < 2 ^ 32) && l.all wfPair)
    (fun x r hx => by
      have hx' := hx
      simp only [Bool.and_eq_true] at hx'
      exact getExtList_putExtList x r hx'.1 hx'.2) a.extended _ he]
  simp only [Option.some_bind, Option.pure_def]

theorem getU8_putU8 (v : Nat) (r : List Nat) (h : v < 256) :
    getU8 (putU8 v ++ r) = some (v, r) := by
  simp only [putU8, Nat.mod_eq_of_lt h, List.cons_append, List.nil_append,
    getU8]

theorem getU32_putU32_nil (v : Nat) (h : v < 2 ^ 32) :
    getU32 (putU32 v) = some (v, []) := by
  have := getU32_putU32 v [] h
  simpa using this

theorem getBytes_putBytes_nil (s : List Nat) (h : s.length < 2 ^ 32) :
    getBytes (putBytes s) = some (s, []) := by
  have := getBytes_putBytes s [] h
  simpa using this

theorem getAttrs_putAttrs_nil (a : FileAttrs) (hw : wfAttrs a = true) :
    getAttrs (putAttrs a) = some (a, []) := by
  have := getAttrs_putAttrs a [] hw
  simpa using this

theorem getPairsAll_putPairs :
    ∀ (l : List (List Nat × List Nat)) (fuel : Nat),
      l.all wfPair = true →
      (l.map putPair).flatten.length ≤ fuel →
      getPairsAll fuel (l.map putPair).flatten = some l := by
  intro l
  induction l with
  | nil =>
      intro fuel _ _
      simp only [List.map_nil, List.flatten_nil]
      cases fuel <;> simp [getPairsAll]
  | cons p rest ih =>
      intro fuel hall hfuel
      simp only [List.all_cons, Bool.and_eq_true] at hall
      simp only [List.map_cons, List.flatten_cons] at hfuel ⊢
      have hplen : 8 ≤ (putPair p).length := by
        simp only [putPair, putBytes, putU32, List.length_append,
          List.length_cons, List.length_nil]
        omega
      have hne : putPair p ++ (rest.map putPair).flatten ≠ [] := by
        intro hcontra
        have := congrArg List.length hcontra
        simp only [List.length_append, List.length_nil] at this
        omega
      obtain ⟨b, bs, heq⟩ := List.exists_cons_of_ne_nil hne
      cases fuel with
      | zero =>
          exfalso
          have := congrArg List.length heq
          simp only [List.length_append, List.length_cons] at this hfuel
          omega
      | succ fuel =>
          rw [heq]
          simp only [getPairsAll]
          rw [← heq, getPair_putPair p _ hall.1]
          simp only [Option.bind_eq_bind, Option.some_bind]
          have hfl : (rest.map putPair).flatten.length ≤ fuel := by
            have := congrArg List.length heq
            simp only [List.length_append, List.length_cons] at this hfuel
            omega
          rw [ih fuel hall.2 hfl]
          rfl

theorem getNEntries_putEntries :
    ∀ (l : List (List Nat × List Nat × FileAttrs)) (r : List Nat),
      l.all wfEntry = true →
      getNEntries l.length ((l.map putEntry).flatten ++ r) = some (l, r) := by
  intro l
  induction l with
  | nil => intro r _; simp [getNEntries]
  | cons e rest ih =>
      intro r hall
      simp only [List.all_cons, Bool.and_eq_true] at hall
      obtain ⟨he, hrest⟩ := hall
      simp only [wfEntry, Bool.and_eq_true, wfBytes32, decide_eq_true_eq] at he
      simp only [List.map_cons, List.flatten_cons, List.length_cons,
        List.append_assoc, getNEntries, putEntry]
      rw [getBytes_putBytes _ _ he.1.1]
      simp only [Option.bind_eq_bind, Option.some_bind]
      rw [getBytes_putBytes _ _ he.1.2]
      simp only [Option.some_bind]
      rw [getAttrs_putAttrs _ _ he.2]
      simp only [Option.some_bind]
      rw [ih r hrest]
      rfl

theorem getNEntries_putEntries_nil
    (l : List (List Nat × List Nat × FileAttrs))
    (hall : l.all wfEntry = true) :
    getNEntries l.length (l.map putEntry).flatten = some (l, []) := by
  have := getNEntries_putEntries l [] hall
  simpa using this

set_option maxHeartbeats 2000000 in
theorem decodeBody_encodeBody (P : Packet) (wf : wfBody P = true) :
    decodeBody (encodeBody P) = some (P, []) := by
  cases P with
  | init v =>
      simp only [wfBody, decide_eq_true_eq] at wf
      simp [encodeBody, decodeBody, List.append_assoc,
        getU8_putU8 1 _ (by norm_num), getU32_putU32_nil _ wf]
  | version v exts =>
      simp only [wfBody, Bool.and_eq_true, decide_eq_true_eq] at wf
      have hpairs := getPairsAll_putPairs exts
        (exts.map putPair).flatten.length wf.2 (le_refl _)
      have hpairs' : getPairsAll ((exts.map (List.length ∘ putPair)).sum)
          (exts.map putPair).flatten = some exts := by simpa using hpairs
      simp [encodeBody, decodeBody, List.append_assoc,
        getU8_putU8 2 _ (by norm_num), getU32_putU32 _ _ wf.1, hpairs, hpairs']
  | openPk rid path pflags a =>
      simp only [wfBody, Bool.and_eq_true, wfBytes32, decide_eq_true_eq] at wf
      obtain ⟨⟨⟨h1, h2⟩, h3⟩, h4⟩ := wf
      simp [encodeBody, decodeBody, List.append_assoc,
        getU8_putU8 3 _ (by norm_num), getU32_putU32 _ _ h1,
        getBytes_putBytes _ _ h2, getU32_putU32 _ _ h3,
        getAttrs_putAttrs_nil _ h4]
  | close rid h =>
      simp only [wfBody, Bool.and_eq_true, wfBytes32, decide_eq_true_eq] at wf
      simp [encodeBody, decodeBody, List.append_assoc,
        getU8_putU8 4 _ (by norm_num), getU32_putU32 _ _ wf.1,
        getBytes_putBytes_nil _ wf.2]
  | read rid h off len =>
      simp only [wfBody, Bool.and_eq_true, wfBytes32, decide_eq_true_eq] at wf
      obtain ⟨⟨⟨h1, h2⟩, h3⟩, h4⟩ := wf
      simp [encodeBody, decodeBody, List.append_assoc,
        getU8_putU8 5 _ (by norm_num), getU32_putU32 _ _ h1,
        getBytes_putBytes _ _ h2, getU64_putU64 _ _ h3,
        getU32_putU32_nil _ h4]
  | write rid h off d =>
      simp only [wfBody, Bool.and_eq_true, wfBytes32, decide_eq_true_eq] at wf
      obtain ⟨⟨⟨h1, h2⟩, h3⟩, h4⟩ := wf
      simp [encodeBody, decodeBody, List.append_assoc,
        getU8_putU8 6 _ (by norm_num), getU32_putU32 _ _ h1,
        getBytes_putBytes _ _ h2, getU64_putU64 _ _ h3,
        getBytes_putBytes_nil _ h4]
  | lstat rid path =>
      simp only [wfBody, Bool.and_eq_true, wfBytes32, decide_eq_true_eq] at wf
      simp [encodeBody, decodeBody, List.append_assoc,
        getU8_putU8 7 _ (by norm_num), getU32_putU32 _ _ wf.1,
        getBytes_putBytes_nil _ wf.2]
  | fstat rid h =>
      simp only [wfBody, Bool.and_eq_true, wfBytes32, decide_eq_true_eq] at wf
      simp [encodeBody, decodeBody, List.append_assoc,
        getU8_putU8 8 _ (by norm_num), getU32_putU32 _ _ wf.1,
        getBytes_putBytes_nil _ wf.2]
  | setstat rid path a =>
      simp only [wfBody, Bool.and_eq_true, wfBytes32, decide_eq_true_eq] at wf
      obtain ⟨⟨h1, h2⟩, h3⟩ := wf
      simp [encodeBody, decodeBody, List.append_assoc,
        getU8_putU8 9 _ (by norm_num), getU32_putU32 _ _ h1,
        getBytes_putBytes _ _ h2, getAttrs_putAttrs_nil _ h3]
  | fsetstat rid h a =>
      simp only [wfBody, Bool.and_eq_true, wfBytes32, decide_eq_true_eq] at wf
      obtain ⟨⟨h1, h2⟩, h3⟩ := wf
      simp [encodeBody, decodeBody, List.append_assoc,
        getU8_putU8 10 _ (by norm_num), getU32_putU32 _ _ h1,
        getBytes_putBytes _ _ h2, getAttrs_putAttrs_nil _ h3]
  | opendir rid path =>
      simp only [wfBody, Bool.and_eq_true, wfBytes32, decide_eq_true_eq] at wf
      simp [encodeBody, decodeBody, List.append_assoc,
        getU8_putU8 11 _ (by norm_num), getU32_putU32 _ _ wf.1,
        getBytes_putBytes_nil _ wf.2]
  | readdir rid h =>
      simp only [wfBody, Bool.and_eq_true, wfBytes32, decide_eq_true_eq] at wf
      simp [encodeBody, decodeBody, List.append_assoc,
        getU8_putU8 12 _ (by norm_num), getU32_putU32 _ _ wf.1,
        getBytes_putBytes_nil _ wf.2]
  | remove rid path =>
      simp only [wfBody, Bool.and_eq_true, wfBytes32, decide_eq_true_eq] at wf
      simp [encodeBody, decodeBody, List.append_assoc,
        getU8_putU8 13 _ (by norm_num), getU32_putU32 _ _ wf.1,
        getBytes_putBytes_nil _ wf.2]
  | mkdir rid path a =>
      simp only [wfBody, Bool.and_eq_true, wfBytes32, decide_eq_true_eq] at wf
      obtain ⟨⟨h1, h2⟩, h3⟩ := wf
      simp [encodeBody, decodeBody, List.append_assoc,
        getU8_putU8 14 _ (by norm_num), getU32_putU32 _ _ h1,
        getBytes_putBytes _ _ h2, getAttrs_putAttrs_nil _ h3]
  | rmdir rid path =>
      simp only [wfBody, Bool.and_eq_true, wfBytes32, decide_eq_true_eq] at wf
      simp [encodeBody, decodeBody, List.append_assoc,
        getU8_putU8 15 _ (by norm_num), getU32_putU32 _ _ wf.1,
        getBytes_putBytes_nil _ wf.2]
  | realpath rid path =>
      simp only [wfBody, Bool.and_eq_true, wfBytes32, decide_eq_true_eq] at wf
      simp [encodeBody, decodeBody, List.append_assoc,
        getU8_putU8 16 _ (by norm_num), getU32_putU32 _ _ wf.1,
        getBytes_putBytes_nil _ wf.2]
  | stat rid path =>
      simp only [wfBody, Bool.and_eq_true, wfBytes32, decide_eq_true_eq] at wf
      simp [encodeBody, decodeBody, List.append_assoc,
        getU8_putU8 17 _ (by norm_num), getU32_putU32 _ _ wf.1,
        getBytes_putBytes_nil _ wf.2]
  | rename rid oldp newp =>
      simp only [wfBody, Bool.and_eq_true, wfBytes32, decide_eq_true_eq] at wf
      obtain ⟨⟨h1, h2⟩, h3⟩ := wf
      simp [encodeBody, decodeBody, List.append_assoc,
        getU8_putU8 18 _ (by norm_num), getU32_putU32 _ _ h1,
        getBytes_putBytes _ _ h2, getBytes_putBytes_nil _ h3]
  | readlink rid path =>
      simp only [wfBody, Bool.and_eq_true, wfBytes32, decide_eq_true_eq] at wf
      simp [encodeBody, decodeBody, List.append_assoc,
        getU8_putU8 19 _ (by norm_num), getU32_putU32 _ _ wf.1,
        getBytes_putBytes_nil _ wf.2]
  | symlink rid lp tp =>
      simp only [wfBody, Bool.and_eq_true, wfBytes32, decide_eq_true_eq] at wf
      obtain ⟨⟨h1, h2⟩, h3⟩ := wf
      simp [encodeBody, decodeBody, List.append_assoc,
        getU8_putU8 20 _ (by norm_num), getU32_putU32 _ _ h1,
        getBytes_putBytes _ _ h2, getBytes_putBytes_nil _ h3]
  | status rid code msg lang =>
      simp only [wfBody, Bool.and_eq_true, wfBytes32, decide_eq_true_eq] at wf
      obtain ⟨⟨⟨h1, h2⟩, h3⟩, h4⟩ := wf
      simp [encodeBody, decodeBody, List.append_assoc,
        getU8_putU8 101 _ (by norm_num), getU32_putU32 _ _ h1,
        getU32_putU32 _ _ h2, getBytes_putBytes _ _ h3,
        getBytes_putBytes_nil _ h4]
  | handle rid h =>
      simp only [wfBody, Bool.and_eq_true, wfBytes32, decide_eq_true_eq] at wf
      simp [encodeBody, decodeBody, List.append_assoc,
        getU8_putU8 102 _ (by norm_num), getU32_putU32 _ _ wf.1,
        getBytes_putBytes_nil _ wf.2]
  | data rid d =>
      simp only [wfBody, Bool.and_eq_true, wfBytes32, decide_eq_true_eq] at wf
      simp [encodeBody, decodeBody, List.append_assoc,
        getU8_putU8 103 _ (by norm_num), getU32_putU32 _ _ wf.1,
        getBytes_putBytes_nil _ wf.2]
  | name rid entries =>
      simp only [wfBody, Bool.and_eq_true, wfBytes32, decide_eq_true_eq] at wf
      obtain ⟨⟨h1, h2⟩, h3⟩ := wf
      simp [encodeBody, decodeBody, List.append_assoc,
        getU8_putU8 104 _ (by norm_num), getU32_putU32 _ _ h1,
        getU32_putU32 _ _ h2, getNEntries_putEntries_nil _ h3]
  | attrs rid a =>
      simp only [wfBody, Bool.and_eq_true, wfBytes32, decide_eq_true_eq] at wf
      simp [encodeBody, decodeBody, List.append_assoc,
        getU8_putU8 105 _ (by norm_num), getU32_putU32 _ _ wf.1,
        getAttrs_putAttrs_nil _ wf.2]
  | extended rid nm d =>
      simp only [wfBody, Bool.and_eq_true, wfBytes32, decide_eq_true_eq] at wf
      simp [encodeBody, decodeBody, List.append_assoc,
        getU8_putU8 200 _ (by norm_num), getU32_putU32 _ _ wf.1,
        getBytes_putBytes _ _ wf.2]
  | extendedReply payload =>
      simp [encodeBody, decodeBody, List.append_assoc,
        getU8_putU8 201 _ (by norm_num)]

/-- C4: for every packet of each of the defined packet kinds and every
combination of attribute flags (packets whose fields fit their wire sizes,
as Go's uint32/uint64/string types guarantee), decoding the encoded frame
yields the packet again: decode (encode P) = P. -/
theorem decode_encode_roundtrip :
    ∀ (P : Packet), wfPacket P = true →
      decodePacket (encodePacket P) = some P := by
  intro P wf
  simp only [wfPacket, Bool.and_eq_true, decide_eq_true_eq] at wf
  have hbody := decodeBody_encodeBody P wf.1
  simp [decodePacket, encodePacket, getU32_putU32 _ _ wf.2, hbody]

/-- A concrete OPEN packet whose attributes carry a size, a uid/gid pair
and an extended pair (flag word 0x80000003). -/
def pktW : Packet :=
  Packet.openPk 1 [112, 97, 116, 104] 2
    { size := some 5, uidgid := some (3, 4), permissions := none,
      acmodtime := none, extended := some [([110], [118])] }

theorem decode_encode_roundtrip_witness :
    wfPacket pktW = true ∧ decodePacket (encodePacket pktW) = some pktW :=
  ⟨by decide, decode_encode_roundtrip pktW (by decide)⟩

end Sftp
